import Mathlib

/-!
Verification development for the better-call-claude conversation and
worker-orchestration engine.  The definitions below are a shallow embedding of
the TypeScript sources: `ConversationManager` (src/conversation-manager.ts),
`TaskExecutor` (src/task-executor.ts), `WhatsAppChatManager`
(src/whatsapp-chat.ts) and the inbound WhatsApp dispatch function
`handleInboundWhatsApp` (src/index.ts).  JavaScript `Map`s are embedded as
insertion-ordered association lists with `Map.set` replacing in place;
`Date` values are embedded as natural/integer timestamps; promise
registration/resolution is embedded as explicit waiter records plus an
effect list describing which waiter got resolved with which value.
-/

namespace BCC

/-- Insertion-ordered map update: replace in place when the key exists,
append otherwise (JavaScript `Map.set`). -/
def mapSet {α : Type} : List (String × α) → String → α → List (String × α)
  | [], k, v => [(k, v)]
  | p :: rest, k, v => if p.1 == k then (k, v) :: rest else p :: mapSet rest k v

/-- Lookup of the first entry with the given key (JavaScript `Map.get`). -/
def mapGet {α : Type} : List (String × α) → String → Option α
  | [], _ => none
  | p :: rest, k => if p.1 == k then some p.2 else mapGet rest k

/-- Key removal (JavaScript `Map.delete`). -/
def mapDelete {α : Type} : List (String × α) → String → List (String × α)
  | [], _ => []
  | p :: rest, k => if p.1 == k then mapDelete rest k else p :: mapDelete rest k

inductive ChannelType
  | voice
  | sms
  | whatsapp
deriving DecidableEq, Repr

inductive ConversationState
  | ringing
  | active
  | pending_response
  | ended
deriving DecidableEq, Repr

inductive ConversationDirection
  | inbound
  | outbound
deriving DecidableEq, Repr

inductive Role
  | user
  | assistant
deriving DecidableEq, Repr

structure Metadata where
  fromAddr : Option String
  toAddr : Option String
deriving DecidableEq, Repr

structure Message where
  role : Role
  content : String
  timestamp : Nat
deriving DecidableEq, Repr

structure Conversation where
  id : String
  providerConversationId : String
  channel : ChannelType
  direction : ConversationDirection
  state : ConversationState
  messages : List Message
  startedAt : Nat
  endedAt : Option Nat
  metadata : Option Metadata
deriving DecidableEq, Repr

/-- A registered `waitForInbound` waiter (token identifies the promise,
`channel` is the optional channel filter). -/
structure InboundWaiter where
  token : Nat
  channel : Option ChannelType
deriving DecidableEq, Repr

/-- State of `ConversationManager`: the conversation registry plus the two
waiter pools. -/
structure CMState where
  conversations : List (String × Conversation)
  inboundWaiters : List InboundWaiter
  responseWaiters : List (String × Nat)
deriving DecidableEq, Repr

def CMState.empty : CMState := ⟨[], [], []⟩

/-- Waiter resolutions produced by an operation: which promise was resolved
with which value. -/
inductive Effect
  | responseResolved (conversationId : String) (token : Nat) (value : Option String)
  | inboundResolved (token : Nat) (conversationId : String)
deriving DecidableEq, Repr

/-- `ConversationManager.createConversation`. -/
def createConversation (st : CMState) (id : String) (channel : ChannelType)
    (direction : ConversationDirection) (providerConversationId : String)
    (metadata : Option Metadata) (now : Nat) : Conversation × CMState :=
  let conversation : Conversation :=
    { id := id
      providerConversationId := providerConversationId
      channel := channel
      direction := direction
      state := if channel = ChannelType.voice then ConversationState.ringing
               else ConversationState.active
      messages := []
      startedAt := now
      endedAt := none
      metadata := metadata }
  (conversation, { st with conversations := mapSet st.conversations id conversation })

/-- The reuse test of `findOrCreateConversation`:
`conversation.channel === channel && conversation.state !== ENDED &&
conversation.metadata?.from === from`. -/
def matchesSender (channel : ChannelType) (fromA : String) (c : Conversation) : Bool :=
  c.channel == channel && !(c.state == ConversationState.ended) &&
    (match c.metadata with
     | some m => m.fromAddr == some fromA
     | none => false)

/-- `ConversationManager.findOrCreateConversation`.  The fresh id that
`crypto.randomUUID()` would produce is passed in as `freshId`. -/
def findOrCreateConversation (st : CMState) (channel : ChannelType)
    (providerMessageId fromA toA freshId : String) (now : Nat) :
    Conversation × CMState :=
  let found :=
    if channel = ChannelType.sms ∨ channel = ChannelType.whatsapp then
      st.conversations.find? (fun p => matchesSender channel fromA p.2)
    else none
  match found with
  | some p => (p.2, st)
  | none =>
    createConversation st freshId channel ConversationDirection.inbound
      providerMessageId (some ⟨some fromA, some toA⟩) now

/-- `ConversationManager.updateState`: unknown id is a no-op; otherwise the
state is set unconditionally, recording `endedAt` on a transition to
`ended`. -/
def updateState (st : CMState) (id : String) (s : ConversationState) (now : Nat) :
    CMState :=
  match mapGet st.conversations id with
  | none => st
  | some c =>
    let c' := { c with
      state := s
      endedAt := if s = ConversationState.ended then some now else c.endedAt }
    { st with conversations := mapSet st.conversations id c' }

/-- Compatibility test used by `notifyInboundWaiters`:
`w.channel === undefined || w.channel === conversation.channel`. -/
def inboundCompatible (channel : ChannelType) (w : InboundWaiter) : Bool :=
  w.channel == none || w.channel == some channel

/-- `ConversationManager.notifyInboundWaiters`: resolve and remove the first
compatible inbound waiter, if any. -/
def notifyInboundWaiters (st : CMState) (c : Conversation) : CMState × List Effect :=
  match st.inboundWaiters.find? (inboundCompatible c.channel) with
  | some w =>
    ({ st with inboundWaiters := st.inboundWaiters.eraseP (inboundCompatible c.channel) },
     [Effect.inboundResolved w.token c.id])
  | none => (st, [])

/-- `ConversationManager.addMessage`. -/
def addMessage (st : CMState) (id : String) (role : Role) (content : String)
    (now : Nat) : CMState × List Effect :=
  match mapGet st.conversations id with
  | none => (st, [])
  | some c =>
    let c1 := { c with messages := c.messages ++ [⟨role, content, now⟩] }
    let st1 := { st with conversations := mapSet st.conversations id c1 }
    if role = Role.user then
      let step2 : CMState × List Effect :=
        match mapGet st1.responseWaiters id with
        | some t =>
          ({ st1 with responseWaiters := mapDelete st1.responseWaiters id },
           [Effect.responseResolved id t (some content)])
        | none => (st1, [])
      if c.direction = ConversationDirection.inbound then
        let c2 := { c1 with state := ConversationState.pending_response }
        let st3 := { step2.1 with conversations := mapSet step2.1.conversations id c2 }
        let step4 := notifyInboundWaiters st3 c2
        (step4.1, step2.2 ++ step4.2)
      else step2
    else (st1, [])

/-- Outcome of a `waitForResponse` call at registration time: either the
promise resolves immediately with a value, or a waiter is registered. -/
inductive WaitStart
  | immediate (value : Option String)
  | registered (token : Nat)
deriving DecidableEq, Repr

/-- `ConversationManager.waitForResponse` (registration step).  The token the
new promise would carry is passed in as `token`. -/
def waitForResponse (st : CMState) (conversationId : String) (token : Nat) :
    CMState × WaitStart :=
  match mapGet st.conversations conversationId with
  | none => (st, WaitStart.immediate none)
  | some c =>
    match c.messages.getLast? with
    | some m =>
      if m.role = Role.user then (st, WaitStart.immediate (some m.content))
      else
        ({ st with responseWaiters := mapSet st.responseWaiters conversationId token },
         WaitStart.registered token)
    | none =>
      ({ st with responseWaiters := mapSet st.responseWaiters conversationId token },
       WaitStart.registered token)

/-- `ConversationManager.getPendingInbound`. -/
def getPendingInbound (st : CMState) (channel : Option ChannelType) :
    Option Conversation :=
  (st.conversations.find? (fun p =>
    p.2.direction == ConversationDirection.inbound &&
    p.2.state == ConversationState.pending_response &&
    decide (0 < p.2.messages.length) &&
    (match channel with
     | none => true
     | some ch => p.2.channel == ch))).map Prod.snd

/-- Outcome of a `waitForInbound` call at registration time. -/
inductive InboundWaitStart
  | immediate (c : Conversation)
  | registered (token : Nat)
deriving DecidableEq, Repr

/-- `ConversationManager.waitForInbound` (registration step). -/
def waitForInbound (st : CMState) (token : Nat) (channel : Option ChannelType) :
    CMState × InboundWaitStart :=
  match getPendingInbound st channel with
  | some c => (st, InboundWaitStart.immediate c)
  | none =>
    ({ st with inboundWaiters := st.inboundWaiters ++ [⟨token, channel⟩] },
     InboundWaitStart.registered token)

inductive TaskStatus
  | running
  | completed
  | failed
deriving DecidableEq, Repr

/-- A `TaskExecution` record (the `ChildProcess` handle is not part of the
state; kills are reported through the result of the operation that performs
them). -/
structure TaskExecution where
  conversationId : String
  task : String
  status : TaskStatus
  startedAt : Int
  completionSummary : Option String
  workingDir : String
deriving DecidableEq, Repr

/-- Context returned by `getTaskContext` / `getLatestTaskContext`. -/
structure TaskContext where
  originalTask : String
  completionSummary : String
  workingDir : String
  completedAt : Option Int
  conversationId : Option String
deriving DecidableEq, Repr

/-- State of `TaskExecutor`: the execution table and the callback links. -/
structure TEState where
  executions : List (String × TaskExecution)
  callbackLinks : List (String × String)
deriving DecidableEq, Repr

def TEState.empty : TEState := ⟨[], []⟩

/-- `TaskExecutor.linkCallback`. -/
def linkCallback (st : TEState) (callbackConversationId originalConversationId : String) :
    TEState :=
  { st with callbackLinks :=
      mapSet st.callbackLinks callbackConversationId originalConversationId }

/-- The id resolution of `getTaskContext`:
`this.callbackLinks.get(conversationId) || conversationId` (JavaScript `||`,
so an empty-string link also falls back to the argument). -/
def resolveLink (st : TEState) (conversationId : String) : String :=
  match mapGet st.callbackLinks conversationId with
  | some s => if s == "" then conversationId else s
  | none => conversationId

/-- JavaScript truthiness of the optional `completionSummary` string. -/
def summaryTruthy : Option String → Bool
  | some s => !(s == "")
  | none => false

/-- `TaskExecutor.getTaskContext`: resolve callback links, then return the
context exactly when the execution exists and `execution.completionSummary`
is truthy. -/
def getTaskContext (st : TEState) (conversationId : String) : Option TaskContext :=
  let originalId := resolveLink st conversationId
  match mapGet st.executions originalId with
  | some e =>
    if summaryTruthy e.completionSummary then
      some { originalTask := e.task
             completionSummary := e.completionSummary.getD ""
             workingDir := e.workingDir
             completedAt := none
             conversationId := none }
    else none
  | none => none

/-- `TaskExecutor.recordCompletion`: no-op on an unknown id. -/
def recordCompletion (st : TEState) (conversationId : String) (summary : String) :
    TEState :=
  match mapGet st.executions conversationId with
  | none => st
  | some e =>
    { st with executions :=
        mapSet st.executions conversationId { e with completionSummary := some summary } }

/-- One fold step of `getLatestTaskContext`: keep the execution with the
strictly greatest `startedAt` seen so far (`latestTime` starts at 0). -/
def latestStep (acc : Option TaskContext × Int) (p : String × TaskExecution) :
    Option TaskContext × Int :=
  let executionTime := p.2.startedAt
  if executionTime > acc.2 then
    (some { originalTask := p.2.task
            completionSummary :=
              match p.2.completionSummary with
              | some s => if s == "" then "Task in progress" else s
              | none => "Task in progress"
            workingDir := p.2.workingDir
            completedAt :=
              if p.2.status == TaskStatus.running then none else some executionTime
            conversationId := some p.1 }, executionTime)
  else acc

/-- `TaskExecutor.getLatestTaskContext`. -/
def getLatestTaskContext (st : TEState) : Option TaskContext :=
  (st.executions.foldl latestStep (none, 0)).1

/-- `TaskExecutor.spawnClaude` (state part): record a fresh `running`
execution for the conversation. -/
def spawnClaude (st : TEState) (conversationId workingDir : String) (now : Int) :
    TEState :=
  let execution : TaskExecution :=
    { conversationId := conversationId
      task := ""
      status := TaskStatus.running
      startedAt := now
      completionSummary := none
      workingDir := workingDir }
  { st with executions := mapSet st.executions conversationId execution }

/-- `TaskExecutor.executeTask` (state part): spawn and then record the task
text on the new execution. -/
def executeTask (st : TEState) (conversationId task workingDir : String) (now : Int) :
    TEState :=
  let st1 := spawnClaude st conversationId workingDir now
  match mapGet st1.executions conversationId with
  | some e =>
    { st1 with executions := mapSet st1.executions conversationId { e with task := task } }
  | none => st1

/-- The deletion test of `cleanup` for terminal executions:
`execution.status !== "running" && age > maxAgeMs`. -/
def cleanupOldTest (now maxAgeMs : Int) (e : TaskExecution) : Bool :=
  !(e.status == TaskStatus.running) && now - e.startedAt > maxAgeMs

/-- The zombie test of `cleanup`:
`execution.status === "running" && age > maxRunningMs`. -/
def zombieTest (now maxRunningMs : Int) (e : TaskExecution) : Bool :=
  e.status == TaskStatus.running && now - e.startedAt > maxRunningMs

/-- `TaskExecutor.cleanup`: returns the new state together with the ids of
the zombie executions whose processes were killed (each is also marked
`failed` and deleted, so the mark is not observable in the final table). -/
def cleanup (st : TEState) (maxAgeMs maxRunningMs now : Int) : TEState × List String :=
  let killed := (st.executions.filter (fun p => zombieTest now maxRunningMs p.2)).map Prod.fst
  let kept := st.executions.filter (fun p =>
    !(cleanupOldTest now maxAgeMs p.2) && !(zombieTest now maxRunningMs p.2))
  ({ st with executions := kept }, killed)

structure ChatMessage where
  role : Role
  content : String
  timestamp : Nat
deriving DecidableEq, Repr

/-- State of `WhatsAppChatManager` (the session id, executor handle and
prompt-building inputs play no role in the queueing discipline and are kept
out of the state). -/
structure ChatState where
  history : List ChatMessage
  isProcessing : Bool
  pendingMessages : List String
  maxHistory : Nat
deriving DecidableEq, Repr

/-- `WhatsAppChatManager.trimHistory`: drop the oldest entries beyond
`maxHistory`. -/
def trimHistory (maxHistory : Nat) (history : List ChatMessage) : List ChatMessage :=
  if history.length > maxHistory then history.drop (history.length - maxHistory)
  else history

/-- `WhatsAppChatManager.processMessage` (state part): set the processing
flag; the `spawnClaude` call is reported as the processed message text. -/
def processMessage (st : ChatState) (latestMessage : String) : ChatState × String :=
  ({ st with isProcessing := true }, latestMessage)

/-- What a chat-queue entry point did with the message: spawned a worker for
it now, or queued it behind the in-flight worker. -/
inductive ChatAction
  | spawned (message : String)
  | queued (message : String)
deriving DecidableEq, Repr

/-- `WhatsAppChatManager.handleMessage`. -/
def handleMessage (st : ChatState) (text : String) (now : Nat) :
    ChatState × ChatAction :=
  let st1 := { st with
    history := trimHistory st.maxHistory
      (st.history ++ [({ role := Role.user, content := text, timestamp := now } : ChatMessage)]) }
  if st1.isProcessing then
    ({ st1 with pendingMessages := st1.pendingMessages ++ [text] },
     ChatAction.queued text)
  else
    let step := processMessage st1 text
    (step.1, ChatAction.spawned step.2)

/-- The `onClose` callback `processMessage` installs on the spawned worker:
clear the processing flag, then dequeue and process the oldest pending
message if one exists (returned as `some`). -/
def workerExit (st : ChatState) : ChatState × Option String :=
  let st1 := { st with isProcessing := false }
  match st1.pendingMessages with
  | [] => (st1, none)
  | next :: rest =>
    let step := processMessage { st1 with pendingMessages := rest } next
    (step.1, some step.2)

/-- State owned by `createPhoneAPI`.  `pendingQuestions` is embedded from
src/phone-api.ts (one pending `/api/ask` question per conversation id,
identified by its promise token). -/
structure PhoneAPIState where
  pendingQuestions : List (String × Nat)
  whatsappWaiter : Option Nat
deriving DecidableEq, Repr

/-- Modelled from the spec: the phone API's "wait-for-next-message"
primitive (`hasPendingWhatsAppWait`) — the source of the current phone-api
revision that implements it is not in the repository snapshot, only its
callers and tests are.  Per the spec it "blocks until the next inbound event
on that channel or a timeout", so a pending wait is one registered, not yet
resolved waiter. -/
def hasPendingWhatsAppWait (st : PhoneAPIState) : Bool :=
  st.whatsappWaiter.isSome

/-- Modelled from the spec: `resolveWhatsAppWait` hands the inbound content
to the pending wait-for-next-message waiter and clears it, returning whether
a waiter was resolved. -/
def resolveWhatsAppWait (st : PhoneAPIState) : PhoneAPIState × Bool :=
  match st.whatsappWaiter with
  | some _ => ({ st with whatsappWaiter := none }, true)
  | none => (st, false)

/-- `resolveQuestion` from src/phone-api.ts: resolve and delete the pending
question for this conversation id, if any. -/
def resolveQuestion (st : PhoneAPIState) (conversationId : String) :
    PhoneAPIState × Bool :=
  match mapGet st.pendingQuestions conversationId with
  | some _ =>
    ({ st with pendingQuestions := mapDelete st.pendingQuestions conversationId }, true)
  | none => (st, false)

/-- The pieces of server state `handleInboundWhatsApp` touches.  `chat` is
`some` exactly when a WhatsApp chat manager is configured (baileys mode);
`cwd` is `process.cwd()`. -/
structure ServerState where
  cm : CMState
  phone : PhoneAPIState
  te : TEState
  chat : Option ChatState
  cwd : String
deriving DecidableEq, Repr

/-- Normalized inbound message data (`InboundMessageData`). -/
structure InboundMessageData where
  messageId : String
  fromAddr : String
  toAddr : String
  content : String
deriving DecidableEq, Repr

/-- The dispatch decision `handleInboundWhatsApp` takes for an event. -/
inductive DispatchOutcome
  | resolvedWait (token : Nat) (content : String)
  | resolvedQuestion (conversationId : String) (content : String)
  | dropped (conversationId : String)
  | routedToChat (content : String) (action : ChatAction)
  | spawnedOneShot (conversationId : String) (content : String)
      (workingDir : String) (context : Option TaskContext)
deriving DecidableEq, Repr

/-- The working-directory choice `voiceContext?.workingDir || process.cwd()`
(JavaScript `||`: an empty `workingDir` string also falls back to the
process working directory). -/
def pickWorkingDir (cwd : String) (voiceContext : Option TaskContext) : String :=
  match voiceContext with
  | some ctx => if ctx.workingDir == "" then cwd else ctx.workingDir
  | none => cwd

/-- Priority 4 of `handleInboundWhatsApp`: route to the chat manager when
configured, else spawn a one-shot worker seeded with
`getLatestTaskContext()`, working directory
`voiceContext?.workingDir || process.cwd()`. -/
def dispatchP4 (st : ServerState) (conversation : Conversation) (content : String)
    (now : Nat) : ServerState × DispatchOutcome :=
  match st.chat with
  | some chatSt =>
    let step := handleMessage chatSt content now
    ({ st with chat := some step.1 }, DispatchOutcome.routedToChat content step.2)
  | none =>
    let voiceContext := getLatestTaskContext st.te
    let workingDir := pickWorkingDir st.cwd voiceContext
    let te2 := executeTask st.te conversation.id content workingDir (now : Int)
    ({ st with te := te2 },
     DispatchOutcome.spawnedOneShot conversation.id content workingDir voiceContext)

/-- Priority 3 of `handleInboundWhatsApp`: drop the event when an execution
with status `running` exists for this conversation id. -/
def dispatchP3 (st : ServerState) (conversation : Conversation) (content : String)
    (now : Nat) : ServerState × DispatchOutcome :=
  match mapGet st.te.executions conversation.id with
  | some e =>
    if e.status = TaskStatus.running then (st, DispatchOutcome.dropped conversation.id)
    else dispatchP4 st conversation content now
  | none => dispatchP4 st conversation content now

/-- Priority 2 of `handleInboundWhatsApp`: resolve the pending question for
this conversation id, if any. -/
def dispatchP2 (st : ServerState) (conversation : Conversation) (content : String)
    (now : Nat) : ServerState × DispatchOutcome :=
  let step := resolveQuestion st.phone conversation.id
  let st2 := { st with phone := step.1 }
  if step.2 then (st2, DispatchOutcome.resolvedQuestion conversation.id content)
  else dispatchP3 st2 conversation content now

/-- `handleInboundWhatsApp` from src/index.ts: find-or-create the
conversation, append the user message, then take the first applicable of the
four priority branches. -/
def handleInboundWhatsApp (st : ServerState) (msg : InboundMessageData)
    (freshConvId : String) (now : Nat) : ServerState × DispatchOutcome :=
  let fc := findOrCreateConversation st.cm ChannelType.whatsapp msg.messageId
    msg.fromAddr msg.toAddr freshConvId now
  let conversation := fc.1
  let am := addMessage fc.2 conversation.id Role.user msg.content now
  let st1 := { st with cm := am.1 }
  if hasPendingWhatsAppWait st1.phone then
    let t := st1.phone.whatsappWaiter.getD 0
    let step := resolveWhatsAppWait st1.phone
    if step.2 then
      ({ st1 with phone := step.1 }, DispatchOutcome.resolvedWait t msg.content)
    else dispatchP2 { st1 with phone := step.1 } conversation msg.content now
  else dispatchP2 st1 conversation msg.content now

/-- The waiter resolutions the response-waiter step of `addMessage` emits,
as a function of the waiter table. -/
def respEffects (waiters : List (String × Nat)) (id content : String) : List Effect :=
  match mapGet waiters id with
  | some t => [Effect.responseResolved id t (some content)]
  | none => []

/-- The waiter resolutions `notifyInboundWaiters` emits, as a function of the
waiter pool, the conversation's channel and its id. -/
def inboundNotifyEffects (waiters : List InboundWaiter) (channel : ChannelType)
    (cid : String) : List Effect :=
  match waiters.find? (inboundCompatible channel) with
  | some w => [Effect.inboundResolved w.token cid]
  | none => []

/-- Whether an effect is the resolution of an inbound waiter. -/
def isInboundResolvedEffect : Effect → Bool
  | Effect.inboundResolved _ _ => true
  | _ => false

/-- Example metadata used in concrete traces. -/
def exMetadata : Metadata := ⟨some "+15551234567", some "+15559876543"⟩

/-- A freshly created inbound WhatsApp conversation `c1` in an otherwise
empty registry. -/
def exCreate : Conversation × CMState :=
  createConversation CMState.empty "c1" ChannelType.whatsapp
    ConversationDirection.inbound "p1" (some exMetadata) 0

/-- The registry after ending conversation `c1`. -/
def exEnded : CMState := updateState exCreate.2 "c1" ConversationState.ended 1

/-- Registering a response-wait (token 7) on the already-ended `c1`. -/
def exEndedWait : CMState × WaitStart := waitForResponse exEnded "c1" 7

/-- The registry after ending `c1` and then updating its state back to
`active`. -/
def exRevived : CMState :=
  updateState exEnded "c1" ConversationState.active 2

/-- A registry holding `c1` together with one response waiter (token 5) on
`c1` and one unfiltered inbound waiter (token 9). -/
def exWaiterState : CMState :=
  { conversations := exCreate.2.conversations
    inboundWaiters := [⟨9, none⟩]
    responseWaiters := [("c1", 5)] }

/-- The state `handleInboundWhatsApp` carries into the priority chain: the
registry after find-or-create plus the user-message append. -/
def afterIngest (st : ServerState) (msg : InboundMessageData) (freshConvId : String)
    (now : Nat) : ServerState :=
  { st with cm := (addMessage
      (findOrCreateConversation st.cm ChannelType.whatsapp msg.messageId
        msg.fromAddr msg.toAddr freshConvId now).2
      (findOrCreateConversation st.cm ChannelType.whatsapp msg.messageId
        msg.fromAddr msg.toAddr freshConvId now).1.id
      Role.user msg.content now).1 }

/-- An idle chat session with empty history and no pending messages. -/
def exChat : ChatState :=
  { history := [], isProcessing := true, pendingMessages := [], maxHistory := 50 }

/-- A server state with a pending wait-for-next-message waiter (token 4). -/
def exServerWait : ServerState :=
  { cm := CMState.empty
    phone := { pendingQuestions := [], whatsappWaiter := some 4 }
    te := TEState.empty
    chat := none
    cwd := "/cwd" }

/-- A quiescent server state: no waiter, no question, no executions, no chat
manager configured. -/
def exServerIdle : ServerState :=
  { cm := CMState.empty
    phone := { pendingQuestions := [], whatsappWaiter := none }
    te := TEState.empty
    chat := none
    cwd := "/cwd" }

/-- An inbound WhatsApp message used in concrete dispatch traces. -/
def exMsg : InboundMessageData :=
  { messageId := "m1", fromAddr := "+15551234567", toAddr := "+15559876543",
    content := "yo" }

/-- The conversation `handleInboundWhatsApp` creates for `exMsg` in an empty
registry when given fresh id `f1` at time 0. -/
def exMsgConv : Conversation :=
  (findOrCreateConversation CMState.empty ChannelType.whatsapp "m1" "+15551234567"
    "+15559876543" "f1" 0).1

/-- A running execution used in concrete task-executor traces. -/
def exTaskE : TaskExecution :=
  { conversationId := "t1"
    task := "demo"
    status := TaskStatus.running
    startedAt := 0
    completionSummary := none
    workingDir := "/w" }

/-- An execution table holding only `exTaskE` under id `t1`. -/
def exTEState : TEState :=
  { executions := [("t1", exTaskE)], callbackLinks := [] }

/-- A completed execution that finished at time 100. -/
def exDoneE : TaskExecution :=
  { conversationId := "t2"
    task := "old job"
    status := TaskStatus.completed
    startedAt := 100
    completionSummary := some "done"
    workingDir := "/w2" }

/-- An execution table with one running task (`t1`, started at 0) and one
completed task (`t2`, started at 100). -/
def exReapState : TEState :=
  { executions := [("t1", exTaskE), ("t2", exDoneE)], callbackLinks := [] }

/-- The conversation record stored for `c1` in `exEnded`. -/
def exEndedConv : Conversation :=
  { exCreate.1 with state := ConversationState.ended, endedAt := some 1 }

/-- The registry after an inbound user message "ping" on `c1`. -/
def exUserMsgState : CMState :=
  (addMessage exCreate.2 "c1" Role.user "ping" 0).1

/-- The conversation record stored for `c1` in `exUserMsgState`. -/
def exUserConv : Conversation :=
  { exCreate.1 with
    messages := [⟨Role.user, "ping", 0⟩]
    state := ConversationState.pending_response }

theorem mapGet_mapSet_self {α : Type} (m : List (String × α)) (k : String) (v : α) :
    mapGet (mapSet m k v) k = some v := by
  induction m with
  | nil => simp [mapSet, mapGet]
  | cons p rest ih =>
    by_cases h : p.1 == k
    · simp [mapSet, mapGet, h]
    · simp [mapSet, mapGet, h, ih]

theorem mapGet_mapSet_ne {α : Type} (m : List (String × α)) (k k' : String) (v : α)
    (h : k' ≠ k) : mapGet (mapSet m k v) k' = mapGet m k' := by
  induction m with
  | nil => simp [mapSet, mapGet, Ne.symm h]
  | cons p rest ih =>
    by_cases hp : p.1 == k
    · have hpk : p.1 = k := by simpa using hp
      simp [mapSet, mapGet, hp, hpk, Ne.symm h]
    · simp only [mapSet, hp, if_false, mapGet]
      by_cases hp' : p.1 == k'
      · simp [mapGet, hp']
      · simp [mapGet, hp', ih]

theorem mapGet_mapDelete_self {α : Type} (m : List (String × α)) (k : String) :
    mapGet (mapDelete m k) k = none := by
  induction m with
  | nil => simp [mapDelete, mapGet]
  | cons p rest ih =>
    by_cases h : p.1 == k
    · simp [mapDelete, h, ih]
    · simp [mapDelete, mapGet, h, ih]

theorem notifyInboundWaiters_conversations (st : CMState) (c : Conversation) :
    (notifyInboundWaiters st c).1.conversations = st.conversations := by
  unfold notifyInboundWaiters
  cases st.inboundWaiters.find? (inboundCompatible c.channel) <;> simp

/-- C9: if the conversation exists and its latest message has role `user`,
`waitForResponse` resolves immediately with that message's content and
registers no waiter (the state is unchanged). -/
theorem waitForResponse_immediate_on_user_message (st : CMState) (id : String)
    (token : Nat) (c : Conversation) (m : Message)
    (hc : mapGet st.conversations id = some c)
    (hm : c.messages.getLast? = some m) (hrole : m.role = Role.user) :
    waitForResponse st id token = (st, WaitStart.immediate (some m.content)) := by
  unfold waitForResponse
  rw [hc]
  simp [hm, hrole]

theorem waitForResponse_immediate_on_user_message_witness :
    waitForResponse exUserMsgState "c1" 3 =
      (exUserMsgState, WaitStart.immediate (some "ping")) :=
  waitForResponse_immediate_on_user_message exUserMsgState "c1" 3 exUserConv
    ⟨Role.user, "ping", 0⟩ (by decide) (by decide) (by decide)

/-- C10: `waitForResponse` on an id absent from the registry resolves
immediately with the null sentinel; no waiter is registered and no error is
raised (the operation is total and leaves the state unchanged). -/
theorem waitForResponse_unknown_id_immediate_null (st : CMState) (id : String)
    (token : Nat) (h : mapGet st.conversations id = none) :
    waitForResponse st id token = (st, WaitStart.immediate none) := by
  unfold waitForResponse
  rw [h]

theorem waitForResponse_unknown_id_immediate_null_witness :
    mapGet CMState.empty.conversations "nope" = none ∧
    waitForResponse CMState.empty "nope" 3 = (CMState.empty, WaitStart.immediate none) :=
  ⟨by decide, waitForResponse_unknown_id_immediate_null CMState.empty "nope" 3 (by decide)⟩

theorem mapSet_mapSet {α : Type} (m : List (String × α)) (k : String) (v v' : α) :
    mapSet (mapSet m k v) k v' = mapSet m k v' := by
  induction m with
  | nil => simp [mapSet]
  | cons p rest ih =>
    by_cases h : p.1 == k
    · simp [mapSet, h]
    · simp [mapSet, h, ih]

theorem notifyInboundWaiters_effects (st : CMState) (c : Conversation) :
    (notifyInboundWaiters st c).2 =
      inboundNotifyEffects st.inboundWaiters c.channel c.id := by
  unfold notifyInboundWaiters inboundNotifyEffects
  cases st.inboundWaiters.find? (inboundCompatible c.channel) <;> simp

theorem notifyInboundWaiters_responseWaiters (st : CMState) (c : Conversation) :
    (notifyInboundWaiters st c).1.responseWaiters = st.responseWaiters := by
  unfold notifyInboundWaiters
  cases st.inboundWaiters.find? (inboundCompatible c.channel) <;> simp

/-- The conversation table after `addMessage` on a known conversation: the
message is appended, and for a user message on an inbound conversation the
state becomes `pending_response`. -/
theorem addMessage_conversations (st : CMState) (id content : String)
    (now : Nat) (role : Role) (c : Conversation)
    (hc : mapGet st.conversations id = some c) :
    (addMessage st id role content now).1.conversations =
      mapSet st.conversations id
        { c with
          messages := c.messages ++ [⟨role, content, now⟩]
          state := if role = Role.user ∧ c.direction = ConversationDirection.inbound
            then ConversationState.pending_response else c.state } := by
  unfold addMessage
  rw [hc]
  cases role with
  | assistant => simp
  | user =>
    by_cases hdir : c.direction = ConversationDirection.inbound <;>
      cases h2 : mapGet st.responseWaiters id <;>
        simp [hdir, h2, notifyInboundWaiters_conversations, mapSet_mapSet]

/-- The response-waiter table after `addMessage` with a user message: the
waiter for this id, if present, has been removed. -/
theorem addMessage_responseWaiters (st : CMState) (id content : String)
    (now : Nat) (c : Conversation) (hc : mapGet st.conversations id = some c) :
    (addMessage st id Role.user content now).1.responseWaiters =
      match mapGet st.responseWaiters id with
      | some _ => mapDelete st.responseWaiters id
      | none => st.responseWaiters := by
  unfold addMessage
  rw [hc]
  by_cases hdir : c.direction = ConversationDirection.inbound <;>
    cases h2 : mapGet st.responseWaiters id <;>
      simp [hdir, h2, notifyInboundWaiters_responseWaiters]

/-- The effect list of `addMessage` with a user message on a known
conversation. -/
theorem addMessage_effects_user (st : CMState) (id content : String) (now : Nat)
    (c : Conversation) (hc : mapGet st.conversations id = some c) :
    (addMessage st id Role.user content now).2 =
      respEffects st.responseWaiters id content ++
        (if c.direction = ConversationDirection.inbound then
          inboundNotifyEffects st.inboundWaiters c.channel c.id
        else []) := by
  unfold addMessage respEffects
  rw [hc]
  by_cases hdir : c.direction = ConversationDirection.inbound <;>
    cases h2 : mapGet st.responseWaiters id <;>
      simp [hdir, h2, notifyInboundWaiters_effects]

theorem findOrCreate_found (st : CMState) (channel : ChannelType)
    (pmid fromA toA freshId : String) (now : Nat) (r : String × Conversation)
    (hch : channel = ChannelType.sms ∨ channel = ChannelType.whatsapp)
    (hf : st.conversations.find? (fun p => matchesSender channel fromA p.2) = some r) :
    findOrCreateConversation st channel pmid fromA toA freshId now = (r.2, st) := by
  unfold findOrCreateConversation
  rw [if_pos hch, hf]

theorem findOrCreate_notFound (st : CMState) (channel : ChannelType)
    (pmid fromA toA freshId : String) (now : Nat)
    (hch : channel = ChannelType.sms ∨ channel = ChannelType.whatsapp)
    (hf : st.conversations.find? (fun p => matchesSender channel fromA p.2) = none) :
    findOrCreateConversation st channel pmid fromA toA freshId now =
      createConversation st freshId channel ConversationDirection.inbound pmid
        (some ⟨some fromA, some toA⟩) now := by
  unfold findOrCreateConversation
  rw [if_pos hch, hf]

theorem find?_mapSet_of_none {α : Type} (P : α → Bool) (l : List (String × α))
    (k : String) (v : α) (hl : ∀ q ∈ l, P q.2 = false) (hv : P v = true) :
    (mapSet l k v).find? (fun q => P q.2) = some (k, v) := by
  induction l with
  | nil => simp [mapSet, List.find?, hv]
  | cons p rest ih =>
    have hp := hl p (List.mem_cons_self _ _)
    by_cases h : p.1 == k
    · simp [mapSet, h, List.find?, hv, hp]
    · rw [Bool.not_eq_true] at h
      simp only [mapSet, h, Bool.false_eq_true, if_false]
      rw [List.find?_cons_of_neg _ (by simp [hp])]
      exact ih (fun q hq => hl q (List.mem_cons_of_mem _ hq))

/-- Every conversation `findOrCreateConversation` returns carries the
requested counterpart address in its metadata. -/
theorem findOrCreate_fromStamp (st : CMState) (channel : ChannelType)
    (pmid fromA toA freshId : String) (now : Nat) :
    ∃ m, (findOrCreateConversation st channel pmid fromA toA freshId now).1.metadata =
        some m ∧ m.fromAddr = some fromA := by
  unfold findOrCreateConversation
  cases hf : (if channel = ChannelType.sms ∨ channel = ChannelType.whatsapp then
      st.conversations.find? (fun p => matchesSender channel fromA p.2) else none) with
  | none =>
    refine ⟨⟨some fromA, some toA⟩, ?_, rfl⟩
    simp [hf, createConversation]
  | some p =>
    by_cases hch : channel = ChannelType.sms ∨ channel = ChannelType.whatsapp
    · rw [if_pos hch] at hf
      have hps := List.find?_some hf
      unfold matchesSender at hps
      cases hm : p.2.metadata with
      | none => rw [hm] at hps; simp at hps
      | some m =>
        rw [hm] at hps
        simp only [Bool.and_eq_true, beq_iff_eq] at hps
        exact ⟨m, by simp [hf], hps.2⟩
    · rw [if_neg hch] at hf
      exact absurd hf (by simp)

/-- C5: for messaging channels, `findOrCreateConversation` (a) reuses an
existing conversation whenever one with the same channel, same `from`
counterpart and non-`ended` state exists, leaving the registry unchanged;
(b) otherwise creates a new inbound `active` conversation stamped with the
sender; (c) is idempotent: two sequential calls for the same
(channel, from) return the same conversation; and (d) calls for different
`from` addresses never return the same conversation. -/
theorem findOrCreateConversation_spec (st : CMState) (channel : ChannelType)
    (pmid fromA toA freshId : String) (now : Nat)
    (hch : channel = ChannelType.sms ∨ channel = ChannelType.whatsapp) :
    ((∃ q ∈ st.conversations, matchesSender channel fromA q.2 = true) →
      (findOrCreateConversation st channel pmid fromA toA freshId now).2 = st ∧
      ∃ q ∈ st.conversations,
        (findOrCreateConversation st channel pmid fromA toA freshId now).1 = q.2 ∧
        matchesSender channel fromA q.2 = true) ∧
    ((∀ q ∈ st.conversations, matchesSender channel fromA q.2 = false) →
      (findOrCreateConversation st channel pmid fromA toA freshId now).1 =
        { id := freshId
          providerConversationId := pmid
          channel := channel
          direction := ConversationDirection.inbound
          state := ConversationState.active
          messages := []
          startedAt := now
          endedAt := none
          metadata := some ⟨some fromA, some toA⟩ } ∧
      (findOrCreateConversation st channel pmid fromA toA freshId now).2.conversations =
        mapSet st.conversations freshId
          (findOrCreateConversation st channel pmid fromA toA freshId now).1) ∧
    (∀ pmid2 toA2 freshId2 now2,
      (findOrCreateConversation
          (findOrCreateConversation st channel pmid fromA toA freshId now).2 channel
          pmid2 fromA toA2 freshId2 now2).1 =
        (findOrCreateConversation st channel pmid fromA toA freshId now).1) ∧
    (∀ (st2 : CMState) (pmid2 toA2 freshId2 fromB : String) (now2 : Nat),
      fromB ≠ fromA →
      (findOrCreateConversation st2 channel pmid2 fromB toA2 freshId2 now2).1 ≠
        (findOrCreateConversation st channel pmid fromA toA freshId now).1) := by
  have hv : channel ≠ ChannelType.voice := by
    rcases hch with rfl | rfl <;> simp
  refine ⟨?_, ?_, ?_, ?_⟩
  · intro hex
    have hs : (st.conversations.find? (fun p => matchesSender channel fromA p.2)).isSome := by
      rw [List.find?_isSome]
      obtain ⟨q, hq, hmq⟩ := hex
      exact ⟨q, hq, hmq⟩
    obtain ⟨r, hr⟩ := Option.isSome_iff_exists.mp hs
    have hPr : matchesSender channel fromA r.2 = true := by
      simpa using List.find?_some hr
    rw [findOrCreate_found st channel pmid fromA toA freshId now r hch hr]
    exact ⟨rfl, r, List.mem_of_find?_eq_some hr, rfl, hPr⟩
  · intro hnone
    have hf : st.conversations.find? (fun p => matchesSender channel fromA p.2) = none :=
      List.find?_eq_none.mpr (fun q hq => by simp [hnone q hq])
    rw [findOrCreate_notFound st channel pmid fromA toA freshId now hch hf]
    constructor
    · simp [createConversation, hv]
    · simp [createConversation, hv]
  · intro pmid2 toA2 freshId2 now2
    by_cases hex : ∃ q ∈ st.conversations, matchesSender channel fromA q.2 = true
    · have hs : (st.conversations.find? (fun p => matchesSender channel fromA p.2)).isSome := by
        rw [List.find?_isSome]
        obtain ⟨q, hq, hmq⟩ := hex
        exact ⟨q, hq, hmq⟩
      obtain ⟨r, hr⟩ := Option.isSome_iff_exists.mp hs
      rw [findOrCreate_found st channel pmid fromA toA freshId now r hch hr,
        findOrCreate_found st channel pmid2 fromA toA2 freshId2 now2 r hch hr]
    · push_neg at hex
      have hnone : ∀ q ∈ st.conversations, matchesSender channel fromA q.2 = false := by
        intro q hq
        have := hex q hq
        simpa using this
      have hf : st.conversations.find? (fun p => matchesSender channel fromA p.2) = none :=
        List.find?_eq_none.mpr (fun q hq => by simp [hnone q hq])
      rw [findOrCreate_notFound st channel pmid fromA toA freshId now hch hf]
      have hmatch : matchesSender channel fromA
          (createConversation st freshId channel ConversationDirection.inbound pmid
            (some ⟨some fromA, some toA⟩) now).1 = true := by
        simp [createConversation, matchesSender, hv]
      have hf2 : ((createConversation st freshId channel ConversationDirection.inbound pmid
            (some ⟨some fromA, some toA⟩) now).2.conversations.find?
            (fun p => matchesSender channel fromA p.2)) =
          some (freshId,
            (createConversation st freshId channel ConversationDirection.inbound pmid
              (some ⟨some fromA, some toA⟩) now).1) := by
        exact find?_mapSet_of_none _ _ _ _ hnone hmatch
      rw [findOrCreate_found _ channel pmid2 fromA toA2 freshId2 now2 _ hch hf2]
  · intro st2 pmid2 toA2 freshId2 fromB now2 hne heq
    obtain ⟨m1, hm1, hf1⟩ :=
      findOrCreate_fromStamp st2 channel pmid2 fromB toA2 freshId2 now2
    obtain ⟨m2, hm2, hf2⟩ :=
      findOrCreate_fromStamp st channel pmid fromA toA freshId now
    rw [heq, hm2] at hm1
    have hmm : m2 = m1 := by injection hm1
    have h3 : (some fromB : Option String) = some fromA := by
      rw [← hf1, ← hmm]
      exact hf2
    exact hne (by injection h3)

theorem findOrCreateConversation_spec_witness :
    (findOrCreateConversation exCreate.2 ChannelType.whatsapp "p2" "+15551234567"
        "+15559876543" "c9" 5).2 = exCreate.2 ∧
    (findOrCreateConversation CMState.empty ChannelType.whatsapp "p9" "+19998887777"
        "+2" "c9" 5).1 ≠
      (findOrCreateConversation exCreate.2 ChannelType.whatsapp "p2" "+15551234567"
        "+15559876543" "c9" 5).1 :=
  ⟨((findOrCreateConversation_spec exCreate.2 ChannelType.whatsapp "p2" "+15551234567"
      "+15559876543" "c9" 5 (Or.inr rfl)).1
      ⟨("c1", exCreate.1), by decide, by decide⟩).1,
   (findOrCreateConversation_spec exCreate.2 ChannelType.whatsapp "p2" "+15551234567"
      "+15559876543" "c9" 5 (Or.inr rfl)).2.2.2 CMState.empty "p9" "+2" "c9"
      "+19998887777" 5 (by decide)⟩

/-- C3 counterexample: conversation `c1` reaches state `ended`, yet a later
`updateState(c1, active)` moves it back to `active` — `ended` is not
terminal, contradicting the claim. -/
theorem updateState_after_ended_changes_state :
    (mapGet exEnded.conversations "c1").map Conversation.state =
      some ConversationState.ended ∧
    (mapGet exRevived.conversations "c1").map Conversation.state =
      some ConversationState.active := by
  decide

/-- C3 amended: `updateState` on a known id sets exactly the requested state
unconditionally (recording `endedAt` on a transition to `ended`), and
`addMessage` with role `user` on a known inbound conversation always sets
the state to `pending_response` — regardless of the previous state, so
`ended` is not terminal and no transition ordering is enforced. -/
theorem updateState_unconditional (st : CMState) (id : String)
    (s : ConversationState) (now : Nat) (c : Conversation)
    (hc : mapGet st.conversations id = some c) :
    mapGet (updateState st id s now).conversations id =
      some { c with
        state := s
        endedAt := if s = ConversationState.ended then some now else c.endedAt } ∧
    (c.direction = ConversationDirection.inbound → ∀ content now2,
      (mapGet (addMessage st id Role.user content now2).1.conversations id).map
          Conversation.state = some ConversationState.pending_response) := by
  constructor
  · unfold updateState
    rw [hc]
    exact mapGet_mapSet_self st.conversations id _
  · intro hdir content now2
    rw [addMessage_conversations st id content now2 Role.user c hc,
      mapGet_mapSet_self]
    simp [hdir]

theorem updateState_unconditional_witness :
    mapGet (updateState exEnded "c1" ConversationState.active 2).conversations "c1" =
      some { exEndedConv with state := ConversationState.active } ∧
    (exEndedConv.direction = ConversationDirection.inbound → ∀ content now2,
      (mapGet (addMessage exEnded "c1" Role.user content now2).1.conversations "c1").map
          Conversation.state = some ConversationState.pending_response) :=
  updateState_unconditional exEnded "c1" ConversationState.active 2 exEndedConv
    (by decide)

/-- C2 counterexample: `c1` is `ended`; a response-wait (token 7) registered
afterwards is then resolved with the real message "hello" by a later
`addMessage`, not with the null timeout sentinel. -/
theorem ended_wait_resolved_with_real_message_cex :
    (mapGet exEnded.conversations "c1").map Conversation.state =
      some ConversationState.ended ∧
    exEndedWait.2 = WaitStart.registered 7 ∧
    (addMessage exEndedWait.1 "c1" Role.user "hello" 2).2 =
      [Effect.responseResolved "c1" 7 (some "hello")] := by
  decide

/-- C2 amended: a wait registered on an ended conversation is NOT restricted
to the null timeout sentinel: `waitForResponse` registers a waiter whenever
the latest message is not a user message (ignoring the `ended` state), and a
later `addMessage` with role `user` on that ended conversation resolves the
waiter with the real message content. -/
theorem wait_after_ended_resolved_by_user_message (st : CMState) (id : String)
    (token : Nat) (c : Conversation) (content : String) (now : Nat)
    (hc : mapGet st.conversations id = some c)
    (_hended : c.state = ConversationState.ended)
    (hlast : ∀ m, c.messages.getLast? = some m → m.role ≠ Role.user) :
    ∃ st', waitForResponse st id token = (st', WaitStart.registered token) ∧
      Effect.responseResolved id token (some content) ∈
        (addMessage st' id Role.user content now).2 := by
  refine ⟨{ st with responseWaiters := mapSet st.responseWaiters id token }, ?_, ?_⟩
  · unfold waitForResponse
    rw [hc]
    cases hL : c.messages.getLast? with
    | none => simp [hL]
    | some m => simp [hL, hlast m hL]
  · have hc' : mapGet ({ st with
        responseWaiters := mapSet st.responseWaiters id token } : CMState).conversations
        id = some c := hc
    rw [addMessage_effects_user _ id content now c hc']
    unfold respEffects
    simp [mapGet_mapSet_self]

/-- C8: `addMessage(id, role, content)` on a known conversation appends
`{role, content, timestamp}`; when the role is `user` it (a) resolves the
pending response-wait on this id with the content and removes it, when one
is present, and (b) when the conversation is inbound, sets its state to
`pending_response` and resolves at most one pending inbound waiter, always
one whose channel filter is absent or equal to the conversation's channel
(the first compatible one when any is compatible). -/
theorem addMessage_spec (st : CMState) (id : String) (role : Role)
    (content : String) (now : Nat) (c : Conversation)
    (hc : mapGet st.conversations id = some c) :
    ((addMessage st id role content now).1.conversations =
      mapSet st.conversations id
        { c with
          messages := c.messages ++ [⟨role, content, now⟩]
          state := if role = Role.user ∧ c.direction = ConversationDirection.inbound
            then ConversationState.pending_response else c.state }) ∧
    (role = Role.user →
      (∀ t, mapGet st.responseWaiters id = some t →
        Effect.responseResolved id t (some content) ∈
          (addMessage st id role content now).2 ∧
        mapGet (addMessage st id role content now).1.responseWaiters id = none) ∧
      ((addMessage st id role content now).2.countP isInboundResolvedEffect ≤ 1) ∧
      (∀ tk cid, Effect.inboundResolved tk cid ∈ (addMessage st id role content now).2 →
        cid = c.id ∧ ∃ w ∈ st.inboundWaiters, w.token = tk ∧
          inboundCompatible c.channel w = true) ∧
      (c.direction = ConversationDirection.inbound →
        ∀ w, st.inboundWaiters.find? (inboundCompatible c.channel) = some w →
          Effect.inboundResolved w.token c.id ∈ (addMessage st id role content now).2)) ∧
    (role = Role.assistant → (addMessage st id role content now).2 = []) := by
  refine ⟨addMessage_conversations st id content now role c hc, ?_, ?_⟩
  · rintro rfl
    refine ⟨?_, ?_, ?_, ?_⟩
    · intro t ht
      constructor
      · rw [addMessage_effects_user st id content now c hc]
        unfold respEffects
        rw [ht]
        simp
      · rw [addMessage_responseWaiters st id content now c hc, ht]
        exact mapGet_mapDelete_self _ _
    · rw [addMessage_effects_user st id content now c hc, List.countP_append]
      have h1 : (respEffects st.responseWaiters id content).countP
          isInboundResolvedEffect = 0 := by
        unfold respEffects
        cases mapGet st.responseWaiters id <;> simp [isInboundResolvedEffect]
      have h2 : (if c.direction = ConversationDirection.inbound then
          inboundNotifyEffects st.inboundWaiters c.channel c.id else []).countP
          isInboundResolvedEffect ≤ 1 := by
        by_cases hdir : c.direction = ConversationDirection.inbound
        · rw [if_pos hdir]
          unfold inboundNotifyEffects
          cases st.inboundWaiters.find? (inboundCompatible c.channel) <;>
            simp [isInboundResolvedEffect]
        · simp [hdir]
      omega
    · intro tk cid hmem
      rw [addMessage_effects_user st id content now c hc] at hmem
      rcases List.mem_append.mp hmem with hm | hm
      · exfalso
        unfold respEffects at hm
        cases h2 : mapGet st.responseWaiters id <;> rw [h2] at hm <;> simp at hm
      · by_cases hdir : c.direction = ConversationDirection.inbound
        · rw [if_pos hdir] at hm
          unfold inboundNotifyEffects at hm
          cases h3 : st.inboundWaiters.find? (inboundCompatible c.channel) with
          | none => rw [h3] at hm; simp at hm
          | some w =>
            rw [h3] at hm
            simp only [List.mem_singleton, Effect.inboundResolved.injEq] at hm
            exact ⟨hm.2, w, List.mem_of_find?_eq_some h3, hm.1.symm, List.find?_some h3⟩
        · rw [if_neg hdir] at hm
          simp at hm
    · intro hdir w h3
      rw [addMessage_effects_user st id content now c hc]
      refine List.mem_append.mpr (Or.inr ?_)
      rw [if_pos hdir]
      unfold inboundNotifyEffects
      rw [h3]
      simp
  · rintro rfl
    unfold addMessage
    rw [hc]
    simp

theorem addMessage_spec_witness :
    Effect.responseResolved "c1" 5 (some "hi") ∈
      (addMessage exWaiterState "c1" Role.user "hi" 1).2 ∧
    Effect.inboundResolved 9 "c1" ∈
      (addMessage exWaiterState "c1" Role.user "hi" 1).2 :=
  ⟨(((addMessage_spec exWaiterState "c1" Role.user "hi" 1 exCreate.1
        (by decide)).2.1 rfl).1 5 (by decide)).1,
   ((addMessage_spec exWaiterState "c1" Role.user "hi" 1 exCreate.1
        (by decide)).2.1 rfl).2.2.2 (by decide) ⟨9, none⟩ (by decide)⟩

theorem wait_after_ended_resolved_by_user_message_witness :
    ∃ st', waitForResponse exEnded "c1" 7 = (st', WaitStart.registered 7) ∧
      Effect.responseResolved "c1" 7 (some "hello") ∈
        (addMessage st' "c1" Role.user "hello" 2).2 :=
  wait_after_ended_resolved_by_user_message exEnded "c1" 7 exEndedConv "hello" 2
    (by decide) (by decide) (fun m hm => by simp [exEndedConv, exCreate,
      createConversation, CMState.empty] at hm)

theorem nodupKeys_eq {α : Type} (l : List (String × α))
    (hnd : (l.map Prod.fst).Nodup) (k : String) (a b : α)
    (ha : (k, a) ∈ l) (hb : (k, b) ∈ l) : a = b := by
  induction l with
  | nil => cases ha
  | cons p rest ih =>
    rw [List.map_cons, List.nodup_cons] at hnd
    rcases List.mem_cons.mp ha with h | ha'
    · rcases List.mem_cons.mp hb with h2 | hb'
      · rw [← h] at h2
        injection h2 with _ h3
        exact h3.symm
      · exfalso
        apply hnd.1
        rw [← h]
        exact List.mem_map.mpr ⟨(k, b), hb', rfl⟩
    · rcases List.mem_cons.mp hb with h2 | hb'
      · exfalso
        apply hnd.1
        rw [← h2]
        exact List.mem_map.mpr ⟨(k, a), ha', rfl⟩
      · exact ih hnd.2 ha' hb'

theorem mapGet_eq_none_of_keys {α : Type} (l : List (String × α)) (k : String)
    (h : ∀ p ∈ l, p.1 ≠ k) : mapGet l k = none := by
  induction l with
  | nil => rfl
  | cons p rest ih =>
    have hp : (p.1 == k) = false := by
      simpa using h p (List.mem_cons_self _ _)
    simp only [mapGet, hp, Bool.false_eq_true, if_false]
    exact ih fun q hq => h q (List.mem_cons_of_mem _ hq)

/-- C6: one `cleanup(maxAgeMs, maxRunningMs)` sweep deletes every terminal
execution older than `maxAgeMs`, kills and deletes every execution still
`running` past `maxRunningMs`, and leaves every execution younger than its
applicable threshold untouched (neither killed nor removed). -/
theorem cleanup_spec (st : TEState) (maxAgeMs maxRunningMs now : Int)
    (hnd : (st.executions.map Prod.fst).Nodup) (id : String) (e : TaskExecution)
    (hmem : (id, e) ∈ st.executions) :
    (e.status ≠ TaskStatus.running → now - e.startedAt > maxAgeMs →
      mapGet (cleanup st maxAgeMs maxRunningMs now).1.executions id = none) ∧
    (e.status = TaskStatus.running → now - e.startedAt > maxRunningMs →
      id ∈ (cleanup st maxAgeMs maxRunningMs now).2 ∧
      mapGet (cleanup st maxAgeMs maxRunningMs now).1.executions id = none) ∧
    (e.status ≠ TaskStatus.running → now - e.startedAt ≤ maxAgeMs →
      (id, e) ∈ (cleanup st maxAgeMs maxRunningMs now).1.executions ∧
      id ∉ (cleanup st maxAgeMs maxRunningMs now).2) ∧
    (e.status = TaskStatus.running → now - e.startedAt ≤ maxRunningMs →
      (id, e) ∈ (cleanup st maxAgeMs maxRunningMs now).1.executions ∧
      id ∉ (cleanup st maxAgeMs maxRunningMs now).2) := by
  have huniq : ∀ e', (id, e') ∈ st.executions → e' = e :=
    fun e' he' => nodupKeys_eq st.executions hnd id e' e he' hmem
  have hkeptNone : (!(cleanupOldTest now maxAgeMs e) &&
      !(zombieTest now maxRunningMs e)) = false →
      mapGet (cleanup st maxAgeMs maxRunningMs now).1.executions id = none := by
    intro hcond
    apply mapGet_eq_none_of_keys
    intro p hp hpk
    have hp' := List.mem_filter.mp hp
    have hpe : p.2 = e := huniq p.2 (by rw [← hpk, Prod.mk.eta]; exact hp'.1)
    rw [hpe, hcond] at hp'
    exact absurd hp'.2 (by simp)
  have hnotKilled : zombieTest now maxRunningMs e = false →
      id ∉ (cleanup st maxAgeMs maxRunningMs now).2 := by
    intro hz hk
    obtain ⟨p, hp, hpk⟩ := List.mem_map.mp hk
    have hp' := List.mem_filter.mp hp
    have hpe : p.2 = e := huniq p.2 (by rw [← hpk, Prod.mk.eta]; exact hp'.1)
    rw [hpe, hz] at hp'
    exact absurd hp'.2 (by simp)
  refine ⟨?_, ?_, ?_, ?_⟩
  · intro h1 h2
    apply hkeptNone
    have hcond : cleanupOldTest now maxAgeMs e = true := by
      simp [cleanupOldTest, h1, h2]
    simp [hcond]
  · intro h1 h2
    refine ⟨List.mem_map.mpr ⟨(id, e),
      List.mem_filter.mpr ⟨hmem, by simp [zombieTest, h1, h2]⟩, rfl⟩, ?_⟩
    apply hkeptNone
    have hcond : zombieTest now maxRunningMs e = true := by
      simp [zombieTest, h1, h2]
    simp [hcond]
  · intro h1 h2
    have hold : cleanupOldTest now maxAgeMs e = false := by
      simp [cleanupOldTest, h1]
      omega
    have hzom : zombieTest now maxRunningMs e = false := by
      simp [zombieTest, h1]
    exact ⟨List.mem_filter.mpr ⟨hmem, by simp [hold, hzom]⟩, hnotKilled hzom⟩
  · intro h1 h2
    have hold : cleanupOldTest now maxAgeMs e = false := by
      simp [cleanupOldTest, h1]
    have hzom : zombieTest now maxRunningMs e = false := by
      simp [zombieTest, h1]
      omega
    exact ⟨List.mem_filter.mpr ⟨hmem, by simp [hold, hzom]⟩, hnotKilled hzom⟩

theorem cleanup_spec_witness :
    (("t2", exDoneE) ∈ (cleanup exReapState 1000 500 600).1.executions ∧
      "t2" ∉ (cleanup exReapState 1000 500 600).2) ∧
    ("t1" ∈ (cleanup exReapState 1000 500 600).2 ∧
      mapGet (cleanup exReapState 1000 500 600).1.executions "t1" = none) :=
  ⟨(cleanup_spec exReapState 1000 500 600 (by decide) "t2" exDoneE
      (by decide)).2.2.1 (by decide) (by decide),
   (cleanup_spec exReapState 1000 500 600 (by decide) "t1" exTaskE
      (by decide)).2.1 rfl (by decide)⟩

theorem dispatchP4_chat (st : ServerState) (conversation : Conversation)
    (content : String) (now : Nat) (chatSt : ChatState)
    (hchat : st.chat = some chatSt) :
    dispatchP4 st conversation content now =
      ({ st with chat := some (handleMessage chatSt content now).1 },
       DispatchOutcome.routedToChat content (handleMessage chatSt content now).2) := by
  unfold dispatchP4
  rw [hchat]

theorem dispatchP4_noChat (st : ServerState) (conversation : Conversation)
    (content : String) (now : Nat) (hchat : st.chat = none) :
    dispatchP4 st conversation content now =
      ({ st with
          te := executeTask st.te conversation.id content
            (pickWorkingDir st.cwd (getLatestTaskContext st.te)) (now : Int) },
       DispatchOutcome.spawnedOneShot conversation.id content
         (pickWorkingDir st.cwd (getLatestTaskContext st.te))
         (getLatestTaskContext st.te)) := by
  unfold dispatchP4
  rw [hchat]

theorem dispatchP3_running (st : ServerState) (conversation : Conversation)
    (content : String) (now : Nat) (e : TaskExecution)
    (he : mapGet st.te.executions conversation.id = some e)
    (hrun : e.status = TaskStatus.running) :
    dispatchP3 st conversation content now =
      (st, DispatchOutcome.dropped conversation.id) := by
  unfold dispatchP3
  rw [he]
  simp [hrun]

theorem dispatchP3_notRunning (st : ServerState) (conversation : Conversation)
    (content : String) (now : Nat)
    (h : ∀ e, mapGet st.te.executions conversation.id = some e →
      e.status ≠ TaskStatus.running) :
    dispatchP3 st conversation content now = dispatchP4 st conversation content now := by
  unfold dispatchP3
  cases he : mapGet st.te.executions conversation.id with
  | none => rfl
  | some e => simp [h e he]

theorem dispatchP2_question (st : ServerState) (conversation : Conversation)
    (content : String) (now : Nat) (t : Nat)
    (hq : mapGet st.phone.pendingQuestions conversation.id = some t) :
    dispatchP2 st conversation content now =
      ({ st with
          phone := ⟨mapDelete st.phone.pendingQuestions conversation.id,
            st.phone.whatsappWaiter⟩ },
       DispatchOutcome.resolvedQuestion conversation.id content) := by
  unfold dispatchP2 resolveQuestion
  rw [hq]
  rfl

theorem dispatchP2_noQuestion (st : ServerState) (conversation : Conversation)
    (content : String) (now : Nat)
    (hq : mapGet st.phone.pendingQuestions conversation.id = none) :
    dispatchP2 st conversation content now = dispatchP3 st conversation content now := by
  unfold dispatchP2 resolveQuestion
  rw [hq]
  rfl

theorem handleInbound_wait (st : ServerState) (msg : InboundMessageData)
    (freshConvId : String) (now : Nat) (t : Nat)
    (ht : st.phone.whatsappWaiter = some t) :
    handleInboundWhatsApp st msg freshConvId now =
      ({ afterIngest st msg freshConvId now with
          phone := ⟨st.phone.pendingQuestions, none⟩ },
       DispatchOutcome.resolvedWait t msg.content) := by
  unfold handleInboundWhatsApp afterIngest hasPendingWhatsAppWait resolveWhatsAppWait
  simp [ht]

theorem handleInbound_noWait (st : ServerState) (msg : InboundMessageData)
    (freshConvId : String) (now : Nat)
    (hnone : st.phone.whatsappWaiter = none) :
    handleInboundWhatsApp st msg freshConvId now =
      dispatchP2 (afterIngest st msg freshConvId now)
        (findOrCreateConversation st.cm ChannelType.whatsapp msg.messageId
          msg.fromAddr msg.toAddr freshConvId now).1 msg.content now := by
  unfold handleInboundWhatsApp afterIngest hasPendingWhatsAppWait
  simp [hnone]

/-- C1: the dispatch decision of `handleInboundWhatsApp` follows the strict
priority order — (1) a pending wait-for-next-message waiter is resolved with
the event's content and processing stops; (2) else a pending question for
the event's conversation id is resolved and processing stops; (3) else if a
`running` TaskExecution exists for that conversation id the event is dropped
and the execution table is untouched (no worker spawned or queued); (4) else
the message goes to the Chat Queue when configured, otherwise a one-shot
worker is spawned seeded with `getLatestTaskContext()` and working directory
defaulting to the process working directory when the context provides
none. -/
theorem handleInboundWhatsApp_priority (st : ServerState) (msg : InboundMessageData)
    (freshConvId : String) (now : Nat) (conv : Conversation)
    (hconv : (findOrCreateConversation st.cm ChannelType.whatsapp msg.messageId
      msg.fromAddr msg.toAddr freshConvId now).1 = conv) :
    (∀ t, st.phone.whatsappWaiter = some t →
      (handleInboundWhatsApp st msg freshConvId now).2 =
        DispatchOutcome.resolvedWait t msg.content) ∧
    (st.phone.whatsappWaiter = none →
      (∀ t, mapGet st.phone.pendingQuestions conv.id = some t →
        (handleInboundWhatsApp st msg freshConvId now).2 =
          DispatchOutcome.resolvedQuestion conv.id msg.content) ∧
      (mapGet st.phone.pendingQuestions conv.id = none →
        (∀ e, mapGet st.te.executions conv.id = some e →
          e.status = TaskStatus.running →
          (handleInboundWhatsApp st msg freshConvId now).2 =
            DispatchOutcome.dropped conv.id ∧
          (handleInboundWhatsApp st msg freshConvId now).1.te = st.te) ∧
        ((∀ e, mapGet st.te.executions conv.id = some e →
            e.status ≠ TaskStatus.running) →
          (∀ chatSt, st.chat = some chatSt →
            (handleInboundWhatsApp st msg freshConvId now).2 =
              DispatchOutcome.routedToChat msg.content
                (handleMessage chatSt msg.content now).2) ∧
          (st.chat = none →
            (handleInboundWhatsApp st msg freshConvId now).2 =
              DispatchOutcome.spawnedOneShot conv.id msg.content
                (pickWorkingDir st.cwd (getLatestTaskContext st.te))
                (getLatestTaskContext st.te))))) := by
  subst hconv
  constructor
  · intro t ht
    rw [handleInbound_wait st msg freshConvId now t ht]
  · intro hnone
    rw [handleInbound_noWait st msg freshConvId now hnone]
    constructor
    · intro t hq
      rw [dispatchP2_question (afterIngest st msg freshConvId now) _ msg.content now t hq]
    · intro hq
      rw [dispatchP2_noQuestion (afterIngest st msg freshConvId now) _ msg.content now hq]
      constructor
      · intro e he hrun
        rw [dispatchP3_running (afterIngest st msg freshConvId now) _ msg.content now e
          he hrun]
        exact ⟨rfl, rfl⟩
      · intro hnr
        rw [dispatchP3_notRunning (afterIngest st msg freshConvId now) _ msg.content now
          hnr]
        constructor
        · intro chatSt hchat
          rw [dispatchP4_chat (afterIngest st msg freshConvId now) _ msg.content now
            chatSt hchat]
        · intro hchat
          rw [dispatchP4_noChat (afterIngest st msg freshConvId now) _ msg.content now
            hchat]
          rfl

theorem handleInboundWhatsApp_priority_witness :
    ((handleInboundWhatsApp exServerWait exMsg "f1" 0).2 =
      DispatchOutcome.resolvedWait 4 "yo") ∧
    ((handleInboundWhatsApp exServerIdle exMsg "f1" 0).2 =
      DispatchOutcome.spawnedOneShot exMsgConv.id "yo" "/cwd" none) :=
  ⟨(handleInboundWhatsApp_priority exServerWait exMsg "f1" 0 exMsgConv rfl).1 4 rfl,
   ((((handleInboundWhatsApp_priority exServerIdle exMsg "f1" 0 exMsgConv rfl).2
      rfl).2 rfl).2 (fun _ h => Option.noConfusion h)).2 rfl⟩

/-- C7 counterexample: after `recordCompletion("t1", "")` the execution has
a recorded completion summary (the empty string), yet `getTaskContext("t1")`
returns `undefined` because `execution.completionSummary` is falsy — so the
claimed equivalence and `getTaskContext(taskId).completionSummary = s` both
fail at `s = ""`. -/
theorem getTaskContext_empty_summary_cex :
    (mapGet (recordCompletion exTEState "t1" "").executions "t1").map
        TaskExecution.completionSummary = some (some "") ∧
    getTaskContext (recordCompletion exTEState "t1" "") "t1" = none := by
  decide

/-- C7 amended: `getTaskContext(id)` resolves `id` through a callback link
and returns the context exactly when the resolved execution exists and has a
recorded NON-EMPTY completion summary.  For an id with no callback link of
its own and a non-empty summary `s`: after `recordCompletion(taskId, s)`,
`getTaskContext(taskId).completionSummary = s`, and after additionally
`linkCallback(cb, taskId)`, `getTaskContext(cb).completionSummary = s`. -/
theorem getTaskContext_after_recordCompletion (st : TEState) (taskId cb s : String)
    (e : TaskExecution) (he : mapGet st.executions taskId = some e)
    (hnl : mapGet st.callbackLinks taskId = none)
    (htid : taskId ≠ "") (hs : s ≠ "") :
    (summaryTruthy e.completionSummary = false → getTaskContext st taskId = none) ∧
    ((getTaskContext (recordCompletion st taskId s) taskId).map
        TaskContext.completionSummary = some s) ∧
    ((getTaskContext (linkCallback (recordCompletion st taskId s) cb taskId) cb).map
        TaskContext.completionSummary = some s) := by
  have hres : resolveLink st taskId = taskId := by
    unfold resolveLink
    rw [hnl]
  have hrc : recordCompletion st taskId s =
      { st with executions :=
          mapSet st.executions taskId { e with completionSummary := some s } } := by
    unfold recordCompletion
    rw [he]
  have hsb : (s == "") = false := by
    simpa using hs
  have htb : (taskId == "") = false := by
    simpa using htid
  refine ⟨?_, ?_, ?_⟩
  · intro hfalse
    unfold getTaskContext
    rw [hres]
    simp [he, hfalse]
  · rw [hrc]
    unfold getTaskContext resolveLink
    simp [hnl, mapGet_mapSet_self, summaryTruthy, hsb]
  · have hlc : linkCallback (recordCompletion st taskId s) cb taskId =
        ⟨mapSet st.executions taskId { e with completionSummary := some s },
          mapSet st.callbackLinks cb taskId⟩ := by
      rw [hrc]
      rfl
    rw [hlc]
    unfold getTaskContext resolveLink
    simp [mapGet_mapSet_self, htb, summaryTruthy, hsb]

/-- C4: while a worker is processing, `handleMessage` appends the text to
history and enqueues it (pending count grows by one) without spawning a
worker; on worker exit the processing flag is cleared and, when the pending
queue is non-empty, the oldest pending message is dequeued and processed
immediately — so at most one chat worker processes at a time and queued
messages are handled in FIFO arrival order. -/
theorem chatQueue_spec (st : ChatState) (text : String) (now : Nat) :
    (st.isProcessing = true →
      handleMessage st text now =
        ({ st with
            history := trimHistory st.maxHistory
              (st.history ++ [⟨Role.user, text, now⟩])
            pendingMessages := st.pendingMessages ++ [text] },
         ChatAction.queued text) ∧
      (handleMessage st text now).1.pendingMessages.length =
        st.pendingMessages.length + 1 ∧
      (handleMessage st text now).1.isProcessing = true) ∧
    (st.pendingMessages = [] →
      workerExit st = ({ st with isProcessing := false }, none)) ∧
    (∀ next rest, st.pendingMessages = next :: rest →
      workerExit st =
        ({ st with isProcessing := true, pendingMessages := rest }, some next)) := by
  refine ⟨?_, ?_, ?_⟩
  · intro h
    have heq : handleMessage st text now =
        ({ st with
            history := trimHistory st.maxHistory
              (st.history ++ [⟨Role.user, text, now⟩])
            pendingMessages := st.pendingMessages ++ [text] },
         ChatAction.queued text) := by
      unfold handleMessage
      simp [h]
    refine ⟨heq, ?_, ?_⟩ <;> rw [heq] <;> simp [h]
  · intro hp
    unfold workerExit
    simp [hp]
  · intro next rest hp
    unfold workerExit processMessage
    simp [hp]

theorem chatQueue_spec_witness :
    (handleMessage exChat "A" 1).1.pendingMessages.length = 0 + 1 ∧
    workerExit { exChat with pendingMessages := ["B"] } =
      ({ exChat with isProcessing := true, pendingMessages := [] }, some "B") :=
  ⟨((chatQueue_spec exChat "A" 1).1 rfl).2.1,
   (chatQueue_spec { exChat with pendingMessages := ["B"] } "x" 0).2.2 "B" [] rfl⟩

theorem getTaskContext_after_recordCompletion_witness :
    ((getTaskContext (recordCompletion exTEState "t1" "built X") "t1").map
        TaskContext.completionSummary = some "built X") ∧
    ((getTaskContext (linkCallback (recordCompletion exTEState "t1" "built X")
        "cb1" "t1") "cb1").map TaskContext.completionSummary = some "built X") :=
  ⟨(getTaskContext_after_recordCompletion exTEState "t1" "cb1" "built X" exTaskE
      (by decide) (by decide) (by decide) (by decide)).2.1,
   (getTaskContext_after_recordCompletion exTEState "t1" "cb1" "built X" exTaskE
      (by decide) (by decide) (by decide) (by decide)).2.2⟩

end BCC
